/-
Verification of the canvas-term post-processing pipeline.

This file gives a shallow embedding of the bloom/CRT compositing pipeline of
the repository (bright-pass extraction, 21-tap separable Gaussian blur,
combine pass with tint/noise/scanline/curvature/vignette, render-target pool,
blur-cascade dataflow, frame-loop ordering and theme cycling) and proves the
specified properties about it.

Shader arithmetic is modelled exactly over the rationals.  The transcendental
functions the shaders call (`sin`, `sqrt`) are parameters of the model
(`ShaderEnv`), so every theorem about a shader holds for an arbitrary
interpretation of them unless the shader's behaviour genuinely depends on a
concrete value, in which case the needed property (such as `sin 0 = 0` or
boundedness by 1) appears explicitly.
-/
import Mathlib

namespace CanvasTerm

/-! ## Colors and shader helper functions -/

/-- An RGBA color, one rational per channel (exact model of a `vec4`). -/
structure Color where
  r : ℚ
  g : ℚ
  b : ℚ
  a : ℚ
deriving DecidableEq

/-- Componentwise addition of `vec4` values. -/
def Color.add (x y : Color) : Color :=
  ⟨x.r + y.r, x.g + y.g, x.b + y.b, x.a + y.a⟩

/-- Scalar multiplication of a `vec4` by a `float`. -/
def Color.smul (s : ℚ) (x : Color) : Color :=
  ⟨s * x.r, s * x.g, s * x.b, s * x.a⟩

/-- Opaque black, `vec4(0.0, 0.0, 0.0, 1.0)`. -/
def opaqueBlack : Color := ⟨0, 0, 0, 1⟩

/-- Fully white, `vec4(1.0)`. -/
def whiteColor : Color := ⟨1, 1, 1, 1⟩

/-- GLSL `fract`. -/
def fractQ (x : ℚ) : ℚ := x - ⌊x⌋

/-- GLSL `clamp`. -/
def clampQ (lo hi x : ℚ) : ℚ := min hi (max lo x)

/-- GLSL `mix(x, y, t) = x*(1-t) + y*t`. -/
def mixQ (x y t : ℚ) : ℚ := x * (1 - t) + y * t

/-- GLSL `smoothstep(e0, e1, x)`. -/
def smoothstepQ (e0 e1 x : ℚ) : ℚ :=
  let t := clampQ 0 1 ((x - e0) / (e1 - e0))
  t * t * (3 - 2 * t)

/-- Interpretation of the transcendental functions used by the shaders.
`sin` backs GLSL `sin`; `sqrt` backs GLSL `length` (via `sqrt (dot v v)`). -/
structure ShaderEnv where
  sin : ℚ → ℚ
  sqrt : ℚ → ℚ

/-- Writing a fragment color to an 8-bit render target clamps each channel
to `[0, 1]`. -/
def clamp01 (c : Color) : Color :=
  ⟨clampQ 0 1 c.r, clampQ 0 1 c.g, clampQ 0 1 c.b, clampQ 0 1 c.a⟩

/-! ## Bright-pass shader (`brightPassFragmentShaderSource`) -/

/-- `dot(color.rgb, vec3(0.299, 0.587, 0.114))`. -/
def luminance (c : Color) : ℚ :=
  c.r * 0.299 + c.g * 0.587 + c.b * 0.114

/-- The bright-pass fragment shader: keep the pixel if its luminance is
strictly above the threshold, otherwise output opaque black. -/
def brightPassFragment (threshold : ℚ) (c : Color) : Color :=
  if luminance c > threshold then c else opaqueBlack

/-! ## Blur shader (`blurFragmentShaderSource`) -/

/-- The 11 hard-coded Gaussian weights (`weights[0]` … `weights[10]`). -/
def blurWeights : List ℚ :=
  [0.05299, 0.05268, 0.05175, 0.05020, 0.04810,
   0.04551, 0.04252, 0.03924, 0.03576, 0.03220, 0.02867]

/-- The loop indices of `for(int i = 1; i < 11; i++)`. -/
def blurLoopIdx : List ℕ := [1, 2, 3, 4, 5, 6, 7, 8, 9, 10]

/-- The blur fragment shader.  A texture is modelled as a total function from
sampling coordinates to colors (for the uniform textures considered by the
claims, `CLAMP_TO_EDGE` sampling agrees with this model at every tap). -/
def blurFragment (tex : ℚ × ℚ → Color) (dir res : ℚ × ℚ) (radius : ℚ)
    (coord : ℚ × ℚ) : Color :=
  let texel : ℚ × ℚ := (1 / res.1, 1 / res.2)
  let step : Color → ℕ → Color := fun acc i =>
    let w := blurWeights.getD i 0
    let off : ℚ × ℚ := (dir.1 * texel.1 * i * radius, dir.2 * texel.2 * i * radius)
    Color.add (Color.add acc (Color.smul w (tex (coord.1 + off.1, coord.2 + off.2))))
      (Color.smul w (tex (coord.1 - off.1, coord.2 - off.2)))
  blurLoopIdx.foldl step (Color.smul (blurWeights.getD 0 0) (tex coord))

/-- Total weight of the 21-tap kernel: `weights[0] + 2*(weights[1] + … + weights[10])`. -/
def blurTotalWeight : ℚ :=
  blurWeights.getD 0 0 + 2 * (blurWeights.drop 1).sum

/-! ## Combine shader (`combineFragmentShaderSource`) -/

/-- The uniforms of the combine fragment shader. -/
structure CombineParams where
  bloomIntensity : ℚ
  tintColor : ℚ × ℚ × ℚ
  scanlineIntensity : ℚ
  scanlineFrequency : ℚ
  noiseIntensity : ℚ
  noisePixelSize : ℚ
  time : ℚ
  resolution : ℚ × ℚ
  curvature : ℚ
  vignetteStrength : ℚ
  vignetteSize : ℚ
  screenScale : ℚ

/-- `random(st) = fract(sin(dot(st.xy, vec2(12.9898, 78.233))) * 43758.5453123)`. -/
def randomQ (env : ShaderEnv) (st : ℚ × ℚ) : ℚ :=
  fractQ (env.sin (st.1 * 12.9898 + st.2 * 78.233) * 43758.5453123)

/-- `curveScreen`: the barrel-distortion remap of a sampling coordinate. -/
def curveScreen (p : CombineParams) (uv : ℚ × ℚ) : ℚ × ℚ :=
  let u : ℚ × ℚ := (uv.1 * 2 - 1, uv.2 * 2 - 1)
  let r2 := u.1 * u.1 + u.2 * u.2
  let distortion := 1 + p.curvature * r2
  let v : ℚ × ℚ := (u.1 * distortion, u.2 * distortion)
  ((v.1 * p.screenScale + 1) * 0.5, (v.2 * p.screenScale + 1) * 0.5)

/-- Multiply the rgb channels of a color by the tint, keeping alpha. -/
def applyTint (t : ℚ × ℚ × ℚ) (c : Color) : Color :=
  ⟨c.r * t.1, c.g * t.2.1, c.b * t.2.2, c.a⟩

/-- The combine fragment shader, translated statement by statement from
`main` of `combineFragmentShaderSource`.  The four bound textures are
functions from sampling coordinates to colors. -/
def combineFragment (env : ShaderEnv) (p : CombineParams)
    (origTex b1Tex b2Tex b3Tex : ℚ × ℚ → Color) (coord : ℚ × ℚ) : Color :=
  let cc := curveScreen p coord
  if cc.1 < 0 ∨ cc.1 > 1 ∨ cc.2 < 0 ∨ cc.2 > 1 then
    opaqueBlack
  else
    let original := applyTint p.tintColor (origTex cc)
    let bloom1 := applyTint p.tintColor (b1Tex cc)
    let bloom2 := applyTint p.tintColor (b2Tex cc)
    let bloom3 := applyTint p.tintColor (b3Tex cc)
    let bloom := Color.smul p.bloomIntensity (Color.add (Color.add bloom1 bloom2) bloom3)
    let fc := Color.add original bloom
    let noiseCoord : ℚ × ℚ :=
      ((⌊cc.1 * p.resolution.1 / p.noisePixelSize⌋ : ℚ) * p.noisePixelSize / p.resolution.1,
       (⌊cc.2 * p.resolution.2 / p.noisePixelSize⌋ : ℚ) * p.noisePixelSize / p.resolution.2)
    let noise := randomQ env (noiseCoord.1 + p.time * 0.1, noiseCoord.2 + p.time * 0.1) * 2 - 1
    let fc : Color := ⟨fc.r + noise * p.noiseIntensity, fc.g + noise * p.noiseIntensity,
      fc.b + noise * p.noiseIntensity, fc.a⟩
    let scanlineY := cc.2 * p.resolution.2 * p.scanlineFrequency
    let scanline := env.sin (scanlineY + p.time) * 0.5 + 0.5
    let scanlineFactor := 1 - scanline * p.scanlineIntensity
    let horizontalFade := env.sin (cc.2 * 3.14159) * 0.1 + 0.9
    let scanlineFactor := scanlineFactor * horizontalFade
    let fc : Color := ⟨fc.r * scanlineFactor, fc.g * scanlineFactor,
      fc.b * scanlineFactor, fc.a⟩
    let vignetteCoord : ℚ × ℚ := (coord.1 * 2 - 1, coord.2 * 2 - 1)
    let vlen := env.sqrt (vignetteCoord.1 * vignetteCoord.1 + vignetteCoord.2 * vignetteCoord.2)
    let vignette := 1 - smoothstepQ p.vignetteSize 1 vlen
    let vignette := mixQ (1 - p.vignetteStrength) 1 vignette
    ⟨fc.r * vignette, fc.g * vignette, fc.b * vignette, fc.a⟩

/-- The same computation with the bloom contribution removed: the tinted
original with the noise, scanline, curvature-cutoff and vignette effects
applied.  Used to state what the combine stage produces at zero intensity. -/
def combineEffectsOnly (env : ShaderEnv) (p : CombineParams)
    (origTex : ℚ × ℚ → Color) (coord : ℚ × ℚ) : Color :=
  let cc := curveScreen p coord
  if cc.1 < 0 ∨ cc.1 > 1 ∨ cc.2 < 0 ∨ cc.2 > 1 then
    opaqueBlack
  else
    let original := applyTint p.tintColor (origTex cc)
    let fc := original
    let noiseCoord : ℚ × ℚ :=
      ((⌊cc.1 * p.resolution.1 / p.noisePixelSize⌋ : ℚ) * p.noisePixelSize / p.resolution.1,
       (⌊cc.2 * p.resolution.2 / p.noisePixelSize⌋ : ℚ) * p.noisePixelSize / p.resolution.2)
    let noise := randomQ env (noiseCoord.1 + p.time * 0.1, noiseCoord.2 + p.time * 0.1) * 2 - 1
    let fc : Color := ⟨fc.r + noise * p.noiseIntensity, fc.g + noise * p.noiseIntensity,
      fc.b + noise * p.noiseIntensity, fc.a⟩
    let scanlineY := cc.2 * p.resolution.2 * p.scanlineFrequency
    let scanline := env.sin (scanlineY + p.time) * 0.5 + 0.5
    let scanlineFactor := 1 - scanline * p.scanlineIntensity
    let horizontalFade := env.sin (cc.2 * 3.14159) * 0.1 + 0.9
    let scanlineFactor := scanlineFactor * horizontalFade
    let fc : Color := ⟨fc.r * scanlineFactor, fc.g * scanlineFactor,
      fc.b * scanlineFactor, fc.a⟩
    let vignetteCoord : ℚ × ℚ := (coord.1 * 2 - 1, coord.2 * 2 - 1)
    let vlen := env.sqrt (vignetteCoord.1 * vignetteCoord.1 + vignetteCoord.2 * vignetteCoord.2)
    let vignette := 1 - smoothstepQ p.vignetteSize 1 vlen
    let vignette := mixQ (1 - p.vignetteStrength) 1 vignette
    ⟨fc.r * vignette, fc.g * vignette, fc.b * vignette, fc.a⟩

/-! ## Render target pool (`setupBloomResources`) -/

/-- A GPU render target with its pixel dimensions. -/
structure Target where
  w : ℕ
  h : ℕ
deriving DecidableEq

/-- `max(1, floor(d * scale))`, the floor-rounded scaled dimension. -/
def scaledDim (d : ℕ) (s : ℚ) : ℕ :=
  max 1 (⌊(d : ℚ) * s⌋.toNat)

/-- The pool of render targets allocated by `setupBloomResources`:
the full-resolution original and bright targets, plus a (result, scratch)
pair for every scale after the first. -/
structure Pool where
  width : ℕ
  height : ℕ
  originalTarget : Target
  brightTarget : Target
  scaleTargets : List (Target × Target)
deriving DecidableEq

/-- Number of render targets owned by a pool. -/
def poolTargetCount (p : Pool) : ℕ :=
  2 + 2 * p.scaleTargets.length

/-- Allocate a fresh pool for resolution `(w, h)`: mirrors the allocation
part of `setupBloomResources` (the loop runs over `scales[1:]`). -/
def allocPool (scales : List ℚ) (w h : ℕ) : Pool :=
  ⟨w, h, ⟨w, h⟩, ⟨w, h⟩,
    scales.tail.map fun s => (⟨scaledDim w s, scaledDim h s⟩, ⟨scaledDim w s, scaledDim h s⟩)⟩

/-- The backend state relevant to pool lifecycle: the current pool (if any)
and counters of targets ever allocated and ever released. -/
structure GLState where
  pool : Option Pool
  allocCount : ℕ
  freeCount : ℕ
deriving DecidableEq

/-- The state before the first frame: no pool, nothing allocated. -/
def initialGLState : GLState := ⟨none, 0, 0⟩

/-- Number of currently live render targets. -/
def liveTargets (s : GLState) : ℕ := s.allocCount - s.freeCount

/-- `setupBloomResources(width, height)`: return the existing pool unchanged
if it matches the resolution, otherwise release every target of the prior
pool and allocate a fresh set. -/
def setupBloomResources (scales : List ℚ) (s : GLState) (w h : ℕ) :
    GLState × Pool :=
  match s.pool with
  | some p =>
    if p.width = w ∧ p.height = h then (s, p)
    else
      let np := allocPool scales w h
      (⟨some np, s.allocCount + poolTargetCount np, s.freeCount + poolTargetCount p⟩, np)
  | none =>
    let np := allocPool scales w h
    (⟨some np, s.allocCount + poolTargetCount np, s.freeCount⟩, np)

/-- Run a sequence of frames, each acquiring the pool at its resolution. -/
def runResizes (scales : List ℚ) (s : GLState) (sizes : List (ℕ × ℕ)) : GLState :=
  sizes.foldl (fun st sz => (setupBloomResources scales st sz.1 sz.2).1) s

/-! ## Blur cascade dataflow (`draw`, step 3) -/

/-- Symbolic reference to one of the pipeline textures. -/
inductive TexRef where
  | original : TexRef
  | bright : TexRef
  | blurT : ℕ → TexRef
  | tempT : ℕ → TexRef
deriving DecidableEq

/-- One blur draw call: source texture, destination target, direction. -/
structure BlurPass where
  src : TexRef
  dst : TexRef
  direction : ℚ × ℚ
deriving DecidableEq

/-- The body of the cascade loop: `k` remaining iterations, next index `i`,
`cur` the `currentTexture` variable. -/
def cascadeGo : ℕ → ℕ → TexRef → List BlurPass
  | 0, _, _ => []
  | k + 1, i, cur =>
    ⟨cur, .tempT i, (1, 0)⟩ :: ⟨.tempT i, .blurT i, (0, 1)⟩ :: cascadeGo k (i + 1) (.blurT i)

/-- The sequence of blur draw calls issued by `draw` for `m` blur scales
(`m = scales.length - 1`); `currentTexture` starts at the bright target. -/
def blurCascade (m : ℕ) : List BlurPass := cascadeGo m 0 .bright

/-! ## Combine-stage texture bindings (`draw`, step 4) -/

/-- The three bloom texture bindings of the combine stage. -/
structure CombineBindings where
  bloom1 : TexRef
  bloom2 : TexRef
  bloom3 : TexRef
deriving DecidableEq

/-- The blur result textures of a pool with `m` blur scales. -/
def blurTexRefs (m : ℕ) : List TexRef :=
  (List.range m).map TexRef.blurT

/-- `resources.blurTextures[i] || resources.brightTexture` for `i = 0, 1, 2`:
a missing blur result falls back to the bright-pass texture. -/
def combineBindings (blurTexs : List TexRef) : CombineBindings :=
  ⟨blurTexs.getD 0 .bright, blurTexs.getD 1 .bright, blurTexs.getD 2 .bright⟩

/-! ## Frame driver (`draw` and its rescheduling) -/

/-- The observable actions of one `draw` invocation, in program order. -/
inductive FrameEvent where
  | resizeCanvas : ℕ → ℕ → FrameEvent
  | renderTerminal : ℕ → ℕ → FrameEvent
  | setupResources : ℕ → ℕ → FrameEvent
  | uploadOriginal : FrameEvent
  | brightPassDraw : FrameEvent
  | blurDraw : BlurPass → FrameEvent
  | combineDraw : FrameEvent
  | scheduleNext : FrameEvent
deriving DecidableEq

/-- The event trace of one `draw` call: the display canvas is resized to the
window's CSS size times the device pixel ratio (floor-truncated), the
terminal is rasterized at that same backing size, resources are acquired,
the pipeline runs, and the next frame is scheduled last. -/
def drawTrace (cssW cssH dpr : ℚ) (m : ℕ) : List FrameEvent :=
  let w := (⌊cssW * dpr⌋).toNat
  let h := (⌊cssH * dpr⌋).toNat
  .resizeCanvas w h :: .renderTerminal w h :: .setupResources w h ::
    .uploadOriginal :: .brightPassDraw ::
      ((blurCascade m).map .blurDraw ++ [.combineDraw, .scheduleNext])

/-! ## Theme palette (`THEMES`, `nextTheme`) -/

/-- The fixed palette of tint colors. -/
def THEMES : List (ℚ × ℚ × ℚ) :=
  [(0, 1, 0), (1, 0.75, 0), (0.3, 0.7, 1), (1, 0.2, 0.2), (1, 1, 1), (0, 1, 1)]

/-- `nextTheme`: advance the theme index modulo the palette length. -/
def nextTheme (i : ℕ) : ℕ := (i + 1) % THEMES.length

/-- The active tint color, `THEMES[currentThemeIndex % THEMES.length]`. -/
def tintOfIndex (i : ℕ) : ℚ × ℚ × ℚ :=
  THEMES.getD (i % THEMES.length) (0, 0, 0)

/-! ## Auxiliary definitions used by the proofs -/

/-- The texture read by the horizontal pass of iteration `j` of the cascade
loop entered with `currentTexture = cur` and first index `i`. -/
def cascadeInput (cur : TexRef) (i : ℕ) : ℕ → TexRef
  | 0 => cur
  | j + 1 => .blurT (i + j)

/-- Pool balance invariant: a pool is allocated, it owns the per-resolution
target count, and the number of targets ever allocated exceeds the number
released by exactly the current pool's target count. -/
def PoolBalanced (scales : List ℚ) (s : GLState) : Prop :=
  ∃ p, s.pool = some p ∧ poolTargetCount p = 2 + 2 * (scales.length - 1) ∧
    s.allocCount = s.freeCount + poolTargetCount p

/-- Environment interpreting both transcendentals as the zero function; it
agrees with the real functions at the arguments the concrete instances
below actually evaluate (`sin 0 = 0`). -/
def envZero : ShaderEnv := ⟨fun _ => 0, fun _ => 0⟩

/-- All-white texture. -/
def constWhite : ℚ × ℚ → Color := fun _ => whiteColor

/-- All-opaque-black texture. -/
def constBlack : ℚ × ℚ → Color := fun _ => opaqueBlack

/-- Combine parameters with every effect scalar at its neutral value
(`noiseIntensity = scanlineIntensity = curvature = vignetteStrength = 0`,
`tint = (1,1,1)`, `screenScale = 1`) and bloom intensity 1. -/
def pNeutralScalars : CombineParams :=
  ⟨1, (1, 1, 1), 0, 1, 0, 1, 0, (100, 100), 0, 0, 4/5, 1⟩

/-- The neutral-scalar parameters with bloom intensity 0. -/
def pZeroIntensity : CombineParams :=
  ⟨0, (1, 1, 1), 0, 1, 0, 1, 0, (100, 100), 0, 0, 4/5, 1⟩

/-! ## Shared helper lemmas -/

/-- One blur pass over a uniform texture returns the uniform color scaled by
the total kernel weight `29/32 = 0.90625`. -/
theorem blurFragment_const (c : Color) (dir res : ℚ × ℚ) (radius : ℚ)
    (coord : ℚ × ℚ) :
    blurFragment (fun _ => c) dir res radius coord = Color.smul (29/32) c := by
  simp only [blurFragment, blurLoopIdx, List.foldl, blurWeights, List.getD,
    Color.add, Color.smul, List.get?, Option.getD]
  simp only [Color.mk.injEq]
  refine ⟨by ring, by ring, by ring, by ring⟩

/-- Clamping a channel that is at least 1 to `[0,1]` gives exactly 1. -/
theorem clampQ_eq_one {x : ℚ} (hx : 1 ≤ x) : clampQ 0 1 x = 1 := by
  unfold clampQ
  rw [max_eq_right (le_trans zero_le_one hx), min_eq_left hx]

/-- Every freshly allocated pool owns `2 + 2*(scales.length - 1)` targets. -/
theorem poolTargetCount_allocPool (scales : List ℚ) (w h : ℕ) :
    poolTargetCount (allocPool scales w h) = 2 + 2 * (scales.length - 1) := by
  simp [poolTargetCount, allocPool, List.length_tail]

/-- Iterating `nextTheme` adds its count to the index, modulo 6. -/
theorem nextTheme_iterate (k : ℕ) : ∀ i : ℕ, nextTheme^[k + 1] i = (i + (k + 1)) % 6 := by
  induction k with
  | zero => intro i; rfl
  | succ k ih =>
    intro i
    rw [Function.iterate_succ_apply, ih]
    show ((i + 1) % 6 + (k + 1)) % 6 = (i + (k + 1 + 1)) % 6
    omega

/-! ## Claim theorems -/

/-- C2: the bright-pass stage computes luminance as
`0.299*R + 0.587*G + 0.114*B`, outputs the original pixel exactly when the
luminance is strictly greater than the threshold, and outputs opaque black
whenever the luminance is less than or equal to the threshold (so the
boundary case `luminance = threshold` yields black). -/
theorem brightPass_spec (T : ℚ) (c : Color) :
    (luminance c > T → brightPassFragment T c = c) ∧
    (luminance c ≤ T → brightPassFragment T c = opaqueBlack) := by
  constructor
  · intro hgt
    simp [brightPassFragment, hgt]
  · intro hle
    simp [brightPassFragment, not_lt.mpr hle]

/-- Witness for C2, including the boundary case: white has luminance exactly
1, so at threshold 1 it is discarded while at threshold 9/10 it passes. -/
theorem brightPass_spec_witness :
    brightPassFragment 1 whiteColor = opaqueBlack ∧
    brightPassFragment (9/10) whiteColor = whiteColor :=
  ⟨(brightPass_spec 1 whiteColor).2 (by norm_num [luminance, whiteColor]),
   (brightPass_spec (9/10) whiteColor).1 (by norm_num [luminance, whiteColor])⟩

/-- C10: the 21-tap kernel weight total
`weights[0] + 2*(weights[1] + … + weights[10])` equals `0.90625 < 1`, so one
blur pass over a uniform input (every tap sampling the same color under
`CLAMP_TO_EDGE`) scales that color by `0.90625` instead of preserving it. -/
theorem blurKernel_weight_spec (c : Color) (dir res : ℚ × ℚ) (radius : ℚ)
    (coord : ℚ × ℚ) :
    blurTotalWeight = 0.90625 ∧ blurTotalWeight < 1 ∧
    blurFragment (fun _ => c) dir res radius coord = Color.smul 0.90625 c := by
  have h : (0.90625 : ℚ) = 29/32 := by norm_num
  have hw : blurTotalWeight = 29/32 := by
    simp [blurTotalWeight, blurWeights]
    norm_num
  refine ⟨by rw [h, hw], by rw [hw]; norm_num, ?_⟩
  rw [h]
  exact blurFragment_const c dir res radius coord

/-- C4: when the scale list yields fewer than three blur result targets, the
combine stage binds the bright-pass texture in place of each missing blur
input; the bindings are always well defined (no error path exists). -/
theorem combineBindings_spec (m : ℕ) (hm : m < 3) :
    combineBindings (blurTexRefs m) =
      ⟨if 0 < m then .blurT 0 else .bright,
       if 1 < m then .blurT 1 else .bright,
       .bright⟩ := by
  interval_cases m <;> decide

/-- Witness for C4 at `m = 2` (the repository would hit this with a 3-entry
scale list): the third bloom input falls back to the bright-pass texture. -/
theorem combineBindings_spec_witness :
    combineBindings (blurTexRefs 2) = ⟨.blurT 0, .blurT 1, .bright⟩ :=
  (combineBindings_spec 2 (by decide)).trans (by decide)

/-- C6: whenever the barrel-distortion-remapped sampling coordinate has a
component outside `[0,1]`, the combine shader outputs exactly opaque black,
for every interpretation of the transcendentals and all texture contents. -/
theorem combine_curvature_cutoff (env : ShaderEnv) (p : CombineParams)
    (o b1 b2 b3 : ℚ × ℚ → Color) (coord : ℚ × ℚ)
    (h : (curveScreen p coord).1 < 0 ∨ (curveScreen p coord).1 > 1 ∨
         (curveScreen p coord).2 < 0 ∨ (curveScreen p coord).2 > 1) :
    combineFragment env p o b1 b2 b3 coord = opaqueBlack := by
  simp only [combineFragment]
  rw [if_pos h]

/-- Witness for C6: with curvature 1 the corner pixel `(0,0)` remaps to
`(-1,-1)`, so the output is opaque black even over all-white textures. -/
theorem combine_curvature_cutoff_witness :
    combineFragment ⟨fun _ => 0, fun _ => 0⟩
      ⟨1, (1, 1, 1), 0, 1, 0, 1, 0, (100, 100), 1, 0, 4/5, 1⟩
      (fun _ => whiteColor) (fun _ => whiteColor) (fun _ => whiteColor)
      (fun _ => whiteColor) (0, 0) = opaqueBlack :=
  combine_curvature_cutoff ⟨fun _ => 0, fun _ => 0⟩
    ⟨1, (1, 1, 1), 0, 1, 0, 1, 0, (100, 100), 1, 0, 4/5, 1⟩
    (fun _ => whiteColor) (fun _ => whiteColor) (fun _ => whiteColor)
    (fun _ => whiteColor) (0, 0) (by norm_num [curveScreen])

/-- C9: `nextTheme` advances the index modulo the palette length, so the
index always lands in `[0, paletteLength)`, applying it `paletteLength`
times returns to the starting tint, and the active tint is always an
element of the fixed palette. -/
theorem nextTheme_spec (i : ℕ) :
    nextTheme i < THEMES.length ∧
    tintOfIndex (nextTheme^[THEMES.length] i) = tintOfIndex i ∧
    tintOfIndex i ∈ THEMES := by
  refine ⟨?_, ?_, ?_⟩
  · show (i + 1) % THEMES.length < THEMES.length
    exact Nat.mod_lt _ (by decide)
  · have h6 : THEMES.length = 6 := rfl
    have hiter : nextTheme^[6] i = (i + 6) % 6 := nextTheme_iterate 5 i
    have hmod : ((i + 6) % 6) % 6 = i % 6 := by omega
    unfold tintOfIndex
    rw [h6, hiter, hmod]
  · have hlt : i % THEMES.length < 6 := Nat.mod_lt _ (by decide)
    unfold tintOfIndex
    generalize i % THEMES.length = j at hlt
    interval_cases j <;> simp [THEMES]

/-- Shape of the passes emitted by the cascade loop body. -/
theorem cascadeGo_get (k : ℕ) : ∀ (i : ℕ) (cur : TexRef) (j : ℕ), j < k →
    (cascadeGo k i cur)[2 * j]? =
      some ⟨cascadeInput cur i j, .tempT (i + j), (1, 0)⟩ ∧
    (cascadeGo k i cur)[2 * j + 1]? = some ⟨.tempT (i + j), .blurT (i + j), (0, 1)⟩ := by
  induction k with
  | zero => intro i cur j hj; exact absurd hj (Nat.not_lt_zero j)
  | succ k ih =>
    intro i cur j hj
    cases j with
    | zero => simp [cascadeGo, cascadeInput]
    | succ j =>
      have h2 : 2 * (j + 1) = 2 * j + 1 + 1 := by ring
      have h3 : 2 * (j + 1) + 1 = (2 * j + 1) + 1 + 1 := by ring
      obtain ⟨ha, hb⟩ := ih (i + 1) (.blurT i) j (by omega)
      constructor
      · rw [h2]
        show (cascadeGo (k + 1) i cur)[2 * j + 1 + 1]? = _
        simp only [cascadeGo, List.getElem?_cons_succ]
        rw [ha]
        have hsrc : cascadeInput (TexRef.blurT i) (i + 1) j = cascadeInput cur i (j + 1) := by
          cases j with
          | zero => simp [cascadeInput]
          | succ j => simp [cascadeInput]; omega
        have hidx : i + 1 + j = i + (j + 1) := by omega
        rw [hsrc, hidx]
      · rw [h3]
        simp only [cascadeGo, List.getElem?_cons_succ]
        rw [hb]
        have hidx : i + 1 + j = i + (j + 1) := by omega
        rw [hidx]

/-- No pass emitted by the cascade loop ever reads the original texture,
provided the incoming `currentTexture` is not the original texture. -/
theorem cascadeGo_src_ne (k : ℕ) : ∀ (i : ℕ) (cur : TexRef), cur ≠ .original →
    ∀ pass ∈ cascadeGo k i cur, pass.src ≠ .original := by
  induction k with
  | zero => intro i cur _ pass hp; simp [cascadeGo] at hp
  | succ k ih =>
    intro i cur hcur pass hp
    simp only [cascadeGo, List.mem_cons] at hp
    rcases hp with h | h | h
    · rw [h]; exact hcur
    · rw [h]; simp
    · exact ih (i + 1) (.blurT i) (by simp) pass h

/-- C3: blur-cascade iteration `i` first blurs horizontally (direction
`(1,0)`) from the previous iteration's result — the bright-pass target when
`i = 0`, never the original — into scratch target `i`, then blurs that
scratch target vertically (direction `(0,1)`) into result target `i`; the
result of iteration `i` is the horizontal input of iteration `i + 1`. -/
theorem blurCascade_dataflow (m i : ℕ) (hi : i < m) :
    (blurCascade m)[2 * i]? =
      some ⟨if i = 0 then .bright else .blurT (i - 1), .tempT i, (1, 0)⟩ ∧
    (blurCascade m)[2 * i + 1]? = some ⟨.tempT i, .blurT i, (0, 1)⟩ ∧
    ∀ pass ∈ blurCascade m, pass.src ≠ .original := by
  obtain ⟨ha, hb⟩ := cascadeGo_get m 0 .bright i hi
  refine ⟨?_, ?_, ?_⟩
  · rw [blurCascade, ha]
    have : cascadeInput .bright 0 i = if i = 0 then .bright else .blurT (i - 1) := by
      cases i with
      | zero => simp [cascadeInput]
      | succ i => simp [cascadeInput]
    rw [this]
    have h0 : 0 + i = i := by omega
    rw [h0]
  · rw [blurCascade, hb]
    have h0 : 0 + i = i := by omega
    rw [h0]
  · exact cascadeGo_src_ne m 0 .bright (by simp)

/-- Witness for C3 at `m = 2`, `i = 1`: the second iteration reads the first
iteration's result, writes through scratch 1 into result 1. -/
theorem blurCascade_dataflow_witness :
    (blurCascade 2)[2 * 1]? =
      some ⟨if 1 = 0 then .bright else .blurT (1 - 1), .tempT 1, (1, 0)⟩ ∧
    (blurCascade 2)[2 * 1 + 1]? = some ⟨.tempT 1, .blurT 1, (0, 1)⟩ ∧
    ∀ pass ∈ blurCascade 2, pass.src ≠ .original :=
  blurCascade_dataflow 2 1 (by decide)

/-- One `setupBloomResources` call establishes the balance invariant from the
initial state. -/
theorem poolBalanced_first (scales : List ℚ) (w h : ℕ) :
    PoolBalanced scales (setupBloomResources scales initialGLState w h).1 := by
  refine ⟨allocPool scales w h, rfl, poolTargetCount_allocPool scales w h, ?_⟩
  simp [setupBloomResources, initialGLState]

/-- `setupBloomResources` preserves the balance invariant. -/
theorem poolBalanced_step (scales : List ℚ) (s : GLState) (w h : ℕ)
    (hs : PoolBalanced scales s) :
    PoolBalanced scales (setupBloomResources scales s w h).1 := by
  obtain ⟨p, hp, hcnt, hbal⟩ := hs
  rcases s with ⟨pool, ac, fc⟩
  cases hp
  by_cases hmatch : p.width = w ∧ p.height = h
  · have hstep : setupBloomResources scales ⟨some p, ac, fc⟩ w h = (⟨some p, ac, fc⟩, p) := by
      simp [setupBloomResources, hmatch]
    rw [hstep]
    exact ⟨p, rfl, hcnt, hbal⟩
  · have hstep : setupBloomResources scales ⟨some p, ac, fc⟩ w h =
        (⟨some (allocPool scales w h), ac + poolTargetCount (allocPool scales w h),
          fc + poolTargetCount p⟩, allocPool scales w h) := by
      simp [setupBloomResources, hmatch]
    rw [hstep]
    refine ⟨allocPool scales w h, rfl, poolTargetCount_allocPool scales w h, ?_⟩
    dsimp only at hbal ⊢
    omega

/-- Any run of frames preserves the balance invariant. -/
theorem poolBalanced_run (scales : List ℚ) (sizes : List (ℕ × ℕ)) :
    ∀ s : GLState, PoolBalanced scales s →
      PoolBalanced scales (runResizes scales s sizes) := by
  induction sizes with
  | nil => intro s hs; exact hs
  | cons sz sizes ih =>
    intro s hs
    show PoolBalanced scales (runResizes scales ((setupBloomResources scales s sz.1 sz.2).1) sizes)
    exact ih _ (poolBalanced_step scales s sz.1 sz.2 hs)

/-- In a balanced state the live-target count is the per-resolution count. -/
theorem liveTargets_of_poolBalanced (scales : List ℚ) (s : GLState)
    (hs : PoolBalanced scales s) :
    liveTargets s = 2 + 2 * (scales.length - 1) := by
  obtain ⟨p, _, hcnt, hbal⟩ := hs
  simp [liveTargets, hbal, hcnt]

/-- C1: acquiring the pool allocates exactly `2 + 2*(n-1)` targets for a
scale list of length `n`, the scratch/result pair for scale `i+1` measures
`max(1, floor(w*scale))` by `max(1, floor(h*scale))`, re-acquiring at the
same resolution returns the identical pool and state (no new allocation),
acquiring at a different resolution first releases every target of the
prior pool, and the live-target count after any number of resizes equals
the count after a single resize. -/
theorem setupBloomResources_spec (scales : List ℚ) (s : GLState) (w h : ℕ)
    (sizes : List (ℕ × ℕ)) :
    poolTargetCount (allocPool scales w h) = 2 + 2 * (scales.length - 1) ∧
    (∀ i, i < scales.tail.length →
      ((allocPool scales w h).scaleTargets)[i]? =
        some (⟨scaledDim w (scales.tail.getD i 0), scaledDim h (scales.tail.getD i 0)⟩,
              ⟨scaledDim w (scales.tail.getD i 0), scaledDim h (scales.tail.getD i 0)⟩)) ∧
    setupBloomResources scales (setupBloomResources scales s w h).1 w h =
      setupBloomResources scales s w h ∧
    (∀ p, s.pool = some p → ¬(p.width = w ∧ p.height = h) →
      (setupBloomResources scales s w h).1.freeCount = s.freeCount + poolTargetCount p ∧
      (setupBloomResources scales s w h).1.allocCount =
        s.allocCount + (2 + 2 * (scales.length - 1))) ∧
    liveTargets (runResizes scales initialGLState ((w, h) :: sizes)) =
      liveTargets (runResizes scales initialGLState [(w, h)]) := by
  refine ⟨poolTargetCount_allocPool scales w h, ?_, ?_, ?_, ?_⟩
  · intro i hi
    simp only [allocPool]
    rw [List.getElem?_map, List.getElem?_eq_getElem hi,
      List.getD_eq_getElem scales.tail 0 hi]
    rfl
  · rcases s with ⟨pool, ac, fc⟩
    cases pool with
    | none => simp [setupBloomResources, allocPool]
    | some p =>
      by_cases hmatch : p.width = w ∧ p.height = h
      · simp [setupBloomResources, hmatch]
      · simp [setupBloomResources, hmatch, allocPool]
  · intro p hp hmatch
    rcases s with ⟨pool, ac, fc⟩
    cases hp
    constructor
    · simp [setupBloomResources, hmatch]
    · simp [setupBloomResources, hmatch, poolTargetCount_allocPool]
  · have h1 : PoolBalanced scales (runResizes scales initialGLState ((w, h) :: sizes)) := by
      show PoolBalanced scales
        (runResizes scales ((setupBloomResources scales initialGLState w h).1) sizes)
      exact poolBalanced_run scales sizes _ (poolBalanced_first scales w h)
    have h2 : PoolBalanced scales (runResizes scales initialGLState [(w, h)]) :=
      poolBalanced_first scales w h
    rw [liveTargets_of_poolBalanced scales _ h1, liveTargets_of_poolBalanced scales _ h2]

/-- Witness for C1 with scale list `[1, 1/2]`: the pool holds 4 targets, the
single pair measures 50×50 at resolution 100×100, re-acquiring is a no-op, a
resolution change releases all 4 prior targets, and three resizes leave the
same live count as one. -/
theorem setupBloomResources_spec_witness :
    poolTargetCount (allocPool [1, (1:ℚ)/2] 100 100) =
      2 + 2 * (([1, (1:ℚ)/2] : List ℚ).length - 1) ∧
    ((allocPool [1, (1:ℚ)/2] 100 100).scaleTargets)[0]? =
      some (⟨scaledDim 100 (([1, (1:ℚ)/2] : List ℚ).tail.getD 0 0),
             scaledDim 100 (([1, (1:ℚ)/2] : List ℚ).tail.getD 0 0)⟩,
            ⟨scaledDim 100 (([1, (1:ℚ)/2] : List ℚ).tail.getD 0 0),
             scaledDim 100 (([1, (1:ℚ)/2] : List ℚ).tail.getD 0 0)⟩) ∧
    setupBloomResources [1, (1:ℚ)/2]
        (setupBloomResources [1, (1:ℚ)/2] ⟨some (allocPool [1, (1:ℚ)/2] 3 4), 4, 0⟩ 100 100).1
        100 100 =
      setupBloomResources [1, (1:ℚ)/2] ⟨some (allocPool [1, (1:ℚ)/2] 3 4), 4, 0⟩ 100 100 ∧
    ((setupBloomResources [1, (1:ℚ)/2] ⟨some (allocPool [1, (1:ℚ)/2] 3 4), 4, 0⟩ 100 100).1.freeCount =
        0 + poolTargetCount (allocPool [1, (1:ℚ)/2] 3 4) ∧
      (setupBloomResources [1, (1:ℚ)/2] ⟨some (allocPool [1, (1:ℚ)/2] 3 4), 4, 0⟩ 100 100).1.allocCount =
        4 + (2 + 2 * (([1, (1:ℚ)/2] : List ℚ).length - 1))) ∧
    liveTargets (runResizes [1, (1:ℚ)/2] initialGLState [(100, 100), (30, 40), (100, 100)]) =
      liveTargets (runResizes [1, (1:ℚ)/2] initialGLState [(100, 100)]) := by
  have h := setupBloomResources_spec [1, (1:ℚ)/2]
    ⟨some (allocPool [1, (1:ℚ)/2] 3 4), 4, 0⟩ 100 100 [(30, 40), (100, 100)]
  exact ⟨h.1, h.2.1 0 (by simp), h.2.2.1,
    h.2.2.2.1 (allocPool [1, (1:ℚ)/2] 3 4) rfl (by simp [allocPool]), h.2.2.2.2⟩

/-- C8: in every `draw` invocation the display surface is first resized to
the host window size times the device pixel ratio, the source image is
requested from the terminal renderer only after that (at the same backing
resolution, so the rasterized source matches the frame's output
resolution), and scheduling the next display refresh is the last action. -/
theorem drawTrace_spec (cssW cssH dpr : ℚ) (m : ℕ) :
    (drawTrace cssW cssH dpr m)[0]? =
      some (.resizeCanvas (⌊cssW * dpr⌋).toNat (⌊cssH * dpr⌋).toNat) ∧
    (drawTrace cssW cssH dpr m)[1]? =
      some (.renderTerminal (⌊cssW * dpr⌋).toNat (⌊cssH * dpr⌋).toNat) ∧
    (drawTrace cssW cssH dpr m).getLast? = some .scheduleNext := by
  refine ⟨rfl, rfl, ?_⟩
  show (FrameEvent.resizeCanvas _ _ :: .renderTerminal _ _ :: .setupResources _ _ ::
      .uploadOriginal :: .brightPassDraw ::
        ((blurCascade m).map .blurDraw ++ [.combineDraw, .scheduleNext])).getLast? =
    some .scheduleNext
  rw [show (FrameEvent.resizeCanvas (⌊cssW * dpr⌋).toNat (⌊cssH * dpr⌋).toNat ::
      .renderTerminal _ _ :: .setupResources _ _ :: .uploadOriginal :: .brightPassDraw ::
        ((blurCascade m).map .blurDraw ++ [.combineDraw, .scheduleNext])) =
    (FrameEvent.resizeCanvas (⌊cssW * dpr⌋).toNat (⌊cssH * dpr⌋).toNat ::
      .renderTerminal (⌊cssW * dpr⌋).toNat (⌊cssH * dpr⌋).toNat ::
        .setupResources (⌊cssW * dpr⌋).toNat (⌊cssH * dpr⌋).toNat ::
          .uploadOriginal :: .brightPassDraw :: (blurCascade m).map .blurDraw) ++
      [.combineDraw, .scheduleNext] from by simp]
  rw [List.getLast?_append_of_ne_nil _ (by simp)]
  rfl

/-- C5 (amended): (a) at bloom intensity 0 the combine stage outputs exactly
the tinted original with noise, scanline, curvature cutoff and vignette
still applied; (b) with all effect scalars neutral and the remapped
coordinate in bounds, each output pixel is `original + (bloom1 + bloom2 +
bloom3) * intensity` with the rgb channels additionally multiplied by the
unconditional horizontal fade factor `sin(curvedCoord.y * 3.14159)*0.1 +
0.9` (the code applies this factor regardless of scanline intensity). -/
theorem combine_intensity_spec (env : ShaderEnv) (p : CombineParams)
    (o b1 b2 b3 : ℚ × ℚ → Color) (coord : ℚ × ℚ) :
    (p.bloomIntensity = 0 →
      combineFragment env p o b1 b2 b3 coord = combineEffectsOnly env p o coord) ∧
    (p.noiseIntensity = 0 → p.scanlineIntensity = 0 → p.curvature = 0 →
      p.vignetteStrength = 0 → p.tintColor = (1, 1, 1) →
      0 ≤ (curveScreen p coord).1 → (curveScreen p coord).1 ≤ 1 →
      0 ≤ (curveScreen p coord).2 → (curveScreen p coord).2 ≤ 1 →
      combineFragment env p o b1 b2 b3 coord =
        ⟨((o (curveScreen p coord)).r + ((b1 (curveScreen p coord)).r +
            (b2 (curveScreen p coord)).r + (b3 (curveScreen p coord)).r) *
              p.bloomIntensity) *
          (env.sin ((curveScreen p coord).2 * 3.14159) * 0.1 + 0.9),
         ((o (curveScreen p coord)).g + ((b1 (curveScreen p coord)).g +
            (b2 (curveScreen p coord)).g + (b3 (curveScreen p coord)).g) *
              p.bloomIntensity) *
          (env.sin ((curveScreen p coord).2 * 3.14159) * 0.1 + 0.9),
         ((o (curveScreen p coord)).b + ((b1 (curveScreen p coord)).b +
            (b2 (curveScreen p coord)).b + (b3 (curveScreen p coord)).b) *
              p.bloomIntensity) *
          (env.sin ((curveScreen p coord).2 * 3.14159) * 0.1 + 0.9),
         (o (curveScreen p coord)).a + ((b1 (curveScreen p coord)).a +
            (b2 (curveScreen p coord)).a + (b3 (curveScreen p coord)).a) *
              p.bloomIntensity⟩) := by
  constructor
  · intro h0
    simp only [combineFragment, combineEffectsOnly]
    split_ifs with hcond
    · rfl
    · rw [h0]
      simp only [applyTint, Color.add, Color.smul, Color.mk.injEq]
      refine ⟨by ring, by ring, by ring, by ring⟩
  · intro hn hs hc hv ht hx0 hx1 hy0 hy1
    have hnb : ¬((curveScreen p coord).1 < 0 ∨ (curveScreen p coord).1 > 1 ∨
        (curveScreen p coord).2 < 0 ∨ (curveScreen p coord).2 > 1) := by
      push_neg
      exact ⟨hx0, hx1, hy0, hy1⟩
    obtain ⟨t1, t2, t3⟩ : p.tintColor.1 = 1 ∧ p.tintColor.2.1 = 1 ∧ p.tintColor.2.2 = 1 := by
      rw [ht]; exact ⟨rfl, rfl, rfl⟩
    simp only [combineFragment]
    rw [if_neg hnb]
    simp only [applyTint, Color.add, Color.smul, mixQ, Color.mk.injEq]
    rw [hn, hs, hv, t1, t2, t3]
    refine ⟨by ring, by ring, by ring, by ring⟩

/-- Counterexample to C5 as stated: with every listed effect scalar neutral
the output is NOT exactly `original + (bloom1+bloom2+bloom3)*intensity`; at
the in-bounds pixel `(1/2, 0)` the code still multiplies rgb by the
horizontal fade `sin(0)*0.1 + 0.9 = 0.9` (the zero environment agrees with
real `sin` at the evaluated argument, `sin 0 = 0`), giving `0.9` instead of `1`. -/
theorem combine_neutral_counterexample :
    ¬ ∀ (env : ShaderEnv) (p : CombineParams) (o b1 b2 b3 : ℚ × ℚ → Color)
        (coord : ℚ × ℚ),
        p.noiseIntensity = 0 → p.scanlineIntensity = 0 → p.curvature = 0 →
        p.vignetteStrength = 0 → p.tintColor = (1, 1, 1) →
        0 ≤ (curveScreen p coord).1 → (curveScreen p coord).1 ≤ 1 →
        0 ≤ (curveScreen p coord).2 → (curveScreen p coord).2 ≤ 1 →
        combineFragment env p o b1 b2 b3 coord =
          ⟨(o (curveScreen p coord)).r + ((b1 (curveScreen p coord)).r +
              (b2 (curveScreen p coord)).r + (b3 (curveScreen p coord)).r) *
                p.bloomIntensity,
           (o (curveScreen p coord)).g + ((b1 (curveScreen p coord)).g +
              (b2 (curveScreen p coord)).g + (b3 (curveScreen p coord)).g) *
                p.bloomIntensity,
           (o (curveScreen p coord)).b + ((b1 (curveScreen p coord)).b +
              (b2 (curveScreen p coord)).b + (b3 (curveScreen p coord)).b) *
                p.bloomIntensity,
           (o (curveScreen p coord)).a + ((b1 (curveScreen p coord)).a +
              (b2 (curveScreen p coord)).a + (b3 (curveScreen p coord)).a) *
                p.bloomIntensity⟩ := by
  intro hall
  have h := hall envZero pNeutralScalars constWhite constBlack constBlack constBlack
    (1/2, 0) rfl rfl rfl rfl rfl
    (by norm_num [curveScreen, pNeutralScalars])
    (by norm_num [curveScreen, pNeutralScalars])
    (by norm_num [curveScreen, pNeutralScalars])
    (by norm_num [curveScreen, pNeutralScalars])
  have hL : combineFragment envZero pNeutralScalars constWhite constBlack constBlack
      constBlack (1/2, 0) = ⟨9/10, 9/10, 9/10, 4⟩ := by
    norm_num [combineFragment, curveScreen, pNeutralScalars, envZero, constWhite,
      constBlack, applyTint, whiteColor, opaqueBlack, Color.add, Color.smul,
      randomQ, fractQ, mixQ, smoothstepQ, clampQ]
  have hR : (⟨(constWhite (curveScreen pNeutralScalars (1/2, 0))).r +
        ((constBlack (curveScreen pNeutralScalars (1/2, 0))).r +
          (constBlack (curveScreen pNeutralScalars (1/2, 0))).r +
          (constBlack (curveScreen pNeutralScalars (1/2, 0))).r) *
            pNeutralScalars.bloomIntensity,
      (constWhite (curveScreen pNeutralScalars (1/2, 0))).g +
        ((constBlack (curveScreen pNeutralScalars (1/2, 0))).g +
          (constBlack (curveScreen pNeutralScalars (1/2, 0))).g +
          (constBlack (curveScreen pNeutralScalars (1/2, 0))).g) *
            pNeutralScalars.bloomIntensity,
      (constWhite (curveScreen pNeutralScalars (1/2, 0))).b +
        ((constBlack (curveScreen pNeutralScalars (1/2, 0))).b +
          (constBlack (curveScreen pNeutralScalars (1/2, 0))).b +
          (constBlack (curveScreen pNeutralScalars (1/2, 0))).b) *
            pNeutralScalars.bloomIntensity,
      (constWhite (curveScreen pNeutralScalars (1/2, 0))).a +
        ((constBlack (curveScreen pNeutralScalars (1/2, 0))).a +
          (constBlack (curveScreen pNeutralScalars (1/2, 0))).a +
          (constBlack (curveScreen pNeutralScalars (1/2, 0))).a) *
            pNeutralScalars.bloomIntensity⟩ : Color) = ⟨1, 1, 1, 4⟩ := by
    norm_num [constWhite, constBlack, pNeutralScalars, whiteColor, opaqueBlack]
  rw [hL, hR] at h
  have : (9 : ℚ)/10 ≠ 1 := by norm_num
  exact this (congrArg Color.r h)

/-- Witness for C5: both parts at concrete inputs — zero intensity matches
the effects-only rendering, and the neutral-scalar output at `(1/2, 0)`
evaluates to `(0.9, 0.9, 0.9, 4)`, i.e. the amended fade-scaled sum. -/
theorem combine_intensity_spec_witness :
    combineFragment envZero pZeroIntensity constWhite constBlack constBlack constBlack
      (1/2, 0) = combineEffectsOnly envZero pZeroIntensity constWhite (1/2, 0) ∧
    combineFragment envZero pNeutralScalars constWhite constBlack constBlack constBlack
      (1/2, 0) = ⟨9/10, 9/10, 9/10, 4⟩ := by
  constructor
  · exact (combine_intensity_spec envZero pZeroIntensity constWhite constBlack
      constBlack constBlack (1/2, 0)).1 rfl
  · refine ((combine_intensity_spec envZero pNeutralScalars constWhite constBlack
      constBlack constBlack (1/2, 0)).2 rfl rfl rfl rfl rfl
        (by norm_num [curveScreen, pNeutralScalars])
        (by norm_num [curveScreen, pNeutralScalars])
        (by norm_num [curveScreen, pNeutralScalars])
        (by norm_num [curveScreen, pNeutralScalars])).trans ?_
    norm_num [constWhite, constBlack, pNeutralScalars, envZero, curveScreen,
      whiteColor, opaqueBlack]

/-- C7 (amended): for the 100×100 all-white scenario with scales `[1, 0.5]`,
threshold `0.99`, intensity 1 and neutral scanline/noise/curvature/vignette
parameters: the bright pass keeps white, the pool's single scratch/result
pair measures 50×50, the horizontal-then-vertical blur of the white target
is uniformly `0.90625² = 841/1024` times white (not fully white, since the
kernel weights sum to `0.90625 < 1`), and the combine stage output — clamped
on write to the 8-bit display surface — is nevertheless fully white at every
in-bounds pixel, for any `sin` interpretation bounded by 1. -/
theorem whiteScenario_spec :
    brightPassFragment (99/100) whiteColor = whiteColor ∧
    (allocPool [1, (1:ℚ)/2] 100 100).scaleTargets = [(⟨50, 50⟩, ⟨50, 50⟩)] ∧
    (∀ c : ℚ × ℚ,
      blurFragment (fun c2 => blurFragment (fun _ => whiteColor) (1, 0) (50, 50) (5/4) c2)
        (0, 1) (50, 50) (5/4) c = Color.smul (841/1024) whiteColor) ∧
    (∀ (env : ShaderEnv) (time freq npx vsize : ℚ) (coord : ℚ × ℚ),
      (∀ t, -1 ≤ env.sin t ∧ env.sin t ≤ 1) →
      0 ≤ coord.1 → coord.1 ≤ 1 → 0 ≤ coord.2 → coord.2 ≤ 1 →
      clamp01 (combineFragment env
        ⟨1, (1, 1, 1), 0, freq, 0, npx, time, (100, 100), 0, 0, vsize, 1⟩
        constWhite (fun _ => Color.smul (841/1024) whiteColor) constWhite constWhite
        coord) = whiteColor) := by
  refine ⟨?_, ?_, ?_, ?_⟩
  · simp only [brightPassFragment, luminance, whiteColor]
    norm_num
  · simp only [allocPool, List.tail, List.map, scaledDim]
    norm_num
    decide
  · intro c
    have h1 : (fun c2 => blurFragment (fun _ => whiteColor) (1, 0) (50, 50) (5/4) c2) =
        (fun _ : ℚ × ℚ => Color.smul (29/32) whiteColor) :=
      funext fun c2 => blurFragment_const whiteColor (1, 0) (50, 50) (5/4) c2
    rw [h1, blurFragment_const]
    simp only [Color.smul, whiteColor]
    norm_num
  · intro env time freq npx vsize coord hsin h0 h1 h2 h3
    obtain ⟨x, y⟩ := coord
    simp only at h0 h1 h2 h3
    have hcc : curveScreen
        ⟨1, (1, 1, 1), 0, freq, 0, npx, time, (100, 100), 0, 0, vsize, 1⟩ (x, y) =
        (x, y) := by
      simp only [curveScreen, Prod.mk.injEq]
      constructor <;> ring
    simp only [combineFragment, hcc]
    rw [if_neg (by push_neg; exact ⟨h0, h1, h2, h3⟩)]
    simp only [applyTint, Color.add, Color.smul, constWhite, whiteColor, mixQ, clamp01,
      Color.mk.injEq]
    obtain ⟨hs1, hs2⟩ := hsin (y * 3.14159)
    refine ⟨?_, ?_, ?_, ?_⟩ <;> apply clampQ_eq_one <;> nlinarith [hs1, hs2]

/-- Counterexample to C7 as stated: the blur stage does NOT produce a fully
white result over the all-white bright target — at the center pixel of the
50×50 target the horizontal-then-vertical blur yields `841/1024 ≠ 1` per
channel, because the kernel's total weight is `0.90625`. -/
theorem whiteScenario_counterexample :
    blurFragment (fun c2 => blurFragment (fun _ => whiteColor) (1, 0) (50, 50) (5/4) c2)
      (0, 1) (50, 50) (5/4) (1/2, 1/2) ≠ whiteColor := by
  have h1 : (fun c2 => blurFragment (fun _ => whiteColor) (1, 0) (50, 50) (5/4) c2) =
      (fun _ : ℚ × ℚ => Color.smul (29/32) whiteColor) :=
    funext fun c2 => blurFragment_const whiteColor (1, 0) (50, 50) (5/4) c2
  rw [h1, blurFragment_const]
  simp only [Color.smul, whiteColor]
  intro hcontra
  have := congrArg Color.r hcontra
  norm_num at this

/-- Witness for C7: the blur value at one concrete pixel and the clamped
combine output at the center pixel under the zero environment (whose `sin`
is bounded by 1). -/
theorem whiteScenario_spec_witness :
    blurFragment (fun c2 => blurFragment (fun _ => whiteColor) (1, 0) (50, 50) (5/4) c2)
      (0, 1) (50, 50) (5/4) (0, 0) = Color.smul (841/1024) whiteColor ∧
    clamp01 (combineFragment envZero
      ⟨1, (1, 1, 1), 0, 1, 0, 1, 0, (100, 100), 0, 0, 4/5, 1⟩
      constWhite (fun _ => Color.smul (841/1024) whiteColor) constWhite constWhite
      (1/2, 1/2)) = whiteColor :=
  ⟨(whiteScenario_spec.2.2.1) (0, 0),
   (whiteScenario_spec.2.2.2) envZero 0 1 1 (4/5) (1/2, 1/2)
     (fun t => by constructor <;> norm_num [envZero])
     (by norm_num) (by norm_num) (by norm_num) (by norm_num)⟩

end CanvasTerm
